import Mathlib

/-!
Shallow embedding of the GhostFAT virtual-FAT16 synthesizer of
`src/src/ghostfat.c` (KevinRobben/ENERTY_tinyuf2), together with theorems
settling the frozen claims about it.

Conventions of the embedding:
* machine integers are `Nat` with an explicit `% 2 ^ w` wherever the C code
  can overflow or truncate (`uint16_t` cluster fields, little-endian byte
  extraction, FAT entry truncation);
* the 512-byte sector written by `uf2_read_block` is a `List Nat` of length
  512 (each element a byte value), produced by mapping a per-byte function
  over `List.range 512` — this models the initial `memset(data, 0, 512)`
  followed by in-place stores;
* external collaborators (flash driver, measurement-data reader, NVS
  persistence store) are pure parameters carried in an environment record:
  the C code only observes their values, and calls out to them are recorded
  as an explicit event list on the write path;
* configuration constants that live outside the given sources
  (`CFG_UF2_SECTORS_PER_CLUSTER`, `CFG_UF2_NUM_BLOCKS`, `MAX_BLOCKS`, the
  UF2 wire magics from `uf2.h`) are environment parameters or constants
  modelled from the spec, as noted at their definitions.
-/

set_option maxHeartbeats 1000000
set_option maxRecDepth 100000

/-! ## Write-protocol state machine (ghostfat.c, uf2_write_block and helpers) -/

/-- Calls made by `uf2_write_block` to external collaborators, in order.
`flashWrite` records `board_flash_write(addr, data, len)`, `flashFlush`
records `board_flash_flush()`, `serialnumPersist` records the
`nvs_set_blob`/`nvs_commit` pair of `serialnum_to_nvs`, and `restart`
records `esp_restart()`. -/
inductive ExtCall where
  | flashWrite (addr : Nat) (len : Nat) (bytes : Nat → Nat)
  | flashFlush
  | serialnumPersist
  | restart

/-- Modelled from the spec: the UF2 wire record of `uf2.h` (two start magics,
flags, target address, payload size, block index, total block count, family
id, payload bytes, end magic); `uf2.h` is not among the given sources.
Fields are the parsed 32-bit values; `payload` gives the payload bytes. -/
structure UF2Block where
  magicStart0 : Nat
  magicStart1 : Nat
  flags : Nat
  targetAddr : Nat
  payloadSize : Nat
  blockNo : Nat
  numBlocks : Nat
  familyID : Nat
  payload : Nat → Nat
  magicEnd : Nat

/-- Modelled from the spec: the out-of-band control block of `uf2.h`
(its own three magic values and a 6-byte serial number payload). -/
structure SerialNumBlock where
  magicStart0 : Nat
  magicStart1 : Nat
  magicEnd : Nat
  serialNumber : Nat → Nat

/-- The incoming 512-byte write buffer, as seen through both struct overlays
the C code lays over it (`UF2_Block` and `SerialNum_Block`). -/
structure WriteInput where
  uf2 : UF2Block
  serial : SerialNumBlock

/-- Modelled from the spec: the caller-owned `WriteState` of `uf2.h` —
expected total block count, accepted-block counter, and the per-block
written bitmask (a byte array indexed by `blockNo / 8`, modelled as a
function from byte position to byte value). -/
structure WriteState where
  numBlocks : Nat
  numWritten : Nat
  writtenMask : Nat → Nat

/-- Compile-time write-side configuration. `maxBlocks` models `MAX_BLOCKS`
and `boardFamilyId` models `BOARD_UF2_FAMILY_ID`; the serial magic values
model `SERIALNUM_MAGIC_START0/1/END` (all from headers outside the given
sources). `serialnumNvsOk` models whether the `nvs_open`/`nvs_set_blob`/
`nvs_commit` sequence of `serialnum_to_nvs` succeeds. -/
structure WriteEnv where
  maxBlocks : Nat
  boardFamilyId : Nat
  serialMagic0 : Nat
  serialMagic1 : Nat
  serialMagicEnd : Nat
  serialnumNvsOk : Bool

/-- Modelled from the spec: `UF2_MAGIC_START0`, `UF2_MAGIC_START1`,
`UF2_MAGIC_END`, `UF2_FLAG_FAMILYID`, `UF2_FLAG_NOFLASH` of the standard
UF2 wire format (declared in `uf2.h`, outside the given sources). -/
def UF2_MAGIC_START0 : Nat := 0x0A324655

/-- Modelled from the spec: second UF2 start magic. -/
def UF2_MAGIC_START1 : Nat := 0x9E5D5157

/-- Modelled from the spec: UF2 end magic. -/
def UF2_MAGIC_END : Nat := 0x0AB16F30

/-- Modelled from the spec: "family-id-present" flag bit. -/
def UF2_FLAG_FAMILYID : Nat := 0x00002000

/-- Modelled from the spec: "no-flash" flag bit. -/
def UF2_FLAG_NOFLASH : Nat := 0x00000001

/-- ghostfat.c `is_uf2_block`: both start magics and the end magic match,
the family-id flag is set, and the no-flash flag is clear. -/
def is_uf2_block (bl : UF2Block) : Bool :=
  (bl.magicStart0 == UF2_MAGIC_START0) &&
  (bl.magicStart1 == UF2_MAGIC_START1) &&
  (bl.magicEnd == UF2_MAGIC_END) &&
  (bl.flags &&& UF2_FLAG_FAMILYID != 0) &&
  (bl.flags &&& UF2_FLAG_NOFLASH == 0)

/-- ghostfat.c `is_serialnum_block`: the three serial-number magics match. -/
def is_serialnum_block (we : WriteEnv) (bl : SerialNumBlock) : Bool :=
  (bl.magicStart0 == we.serialMagic0) &&
  (bl.magicStart1 == we.serialMagic1) &&
  (bl.magicEnd == we.serialMagicEnd)

/-- Pointwise function update, used to model in-place stores into a buffer
or byte array. -/
def upd (f : Nat → Nat) (i v : Nat) : Nat → Nat :=
  fun j => if j = i then v else f j

/-- ghostfat.c `uf2_write_block`. The C function takes a sector number
`block_no` which it immediately discards (`(void) block_no`), the 512-byte
buffer (here pre-parsed through both overlays), and the caller-owned
`WriteState`. Returns the C return value (-1 rejected / 512 accepted),
the updated state, and the external calls made, in order.
The serial-number path models `serialnum_to_nvs` (open/set/commit then
`esp_restart()`), collapsed to the success flag `we.serialnumNvsOk`. -/
def uf2_write_block (we : WriteEnv) (block_no : Nat) (input : WriteInput)
    (state : WriteState) : Int × WriteState × List ExtCall :=
  let bl := input.uf2
  if !(is_uf2_block bl) then
    if is_serialnum_block we input.serial then
      if we.serialnumNvsOk then
        (512, state, [ExtCall.serialnumPersist, ExtCall.restart])
      else (-1, state, [])
    else (-1, state, [])
  else if bl.familyID = we.boardFamilyId then
    let wev : List ExtCall := [ExtCall.flashWrite bl.targetAddr bl.payloadSize bl.payload]
    if bl.numBlocks ≠ 0 then
      let st1 :=
        if state.numBlocks ≠ bl.numBlocks then
          if we.maxBlocks ≤ bl.numBlocks ∨ state.numBlocks ≠ 0 then
            { state with numBlocks := 4294967295 }
          else
            { state with numBlocks := bl.numBlocks }
        else state
      if bl.blockNo < we.maxBlocks then
        let mask := 1 <<< (bl.blockNo % 8)
        let pos := bl.blockNo / 8
        let st2 :=
          if st1.writtenMask pos &&& mask = 0 then
            { st1 with
              writtenMask := upd st1.writtenMask pos (st1.writtenMask pos ||| mask),
              numWritten := st1.numWritten + 1 }
          else st1
        if st2.numBlocks ≤ st2.numWritten then
          (512, st2, wev ++ [ExtCall.flashFlush])
        else (512, st2, wev)
      else (512, st1, wev)
    else (512, state, wev)
  else (-1, state, [])

/-! ## NVS helper (ghostfat.c, get_measurment_data_size_nvs) -/

/-- Modelled from the spec: outcome of the single
`nvs_get_blob(nvs, "measurment_data_size", &size, &required_size)` call
(the NVS store itself is an external collaborator). `ok v` means `ESP_OK`
with the 4 bytes of the stored value written into `size`; `notFound` means
`ESP_ERR_NVS_NOT_FOUND` (the output buffer is not written); `errOther`
means any other error, e.g. `ESP_ERR_NVS_INVALID_LENGTH` for a stored blob
of the wrong size (output buffer not usable). -/
inductive NvsBlobResult where
  | ok (value : Nat)
  | notFound
  | errOther

/-- ghostfat.c `get_measurment_data_size_nvs`. The local `uint32_t size` is
declared without an initializer; `uninit` is the indeterminate value it
holds when `nvs_get_blob` does not write it. The C code returns 512 only
when the error is neither `ESP_OK` nor `ESP_ERR_NVS_NOT_FOUND`, and
otherwise returns `size` — which on `ESP_ERR_NVS_NOT_FOUND` is still the
uninitialized value. -/
def get_measurment_data_size_nvs (r : NvsBlobResult) (uninit : Nat) : Nat :=
  match r with
  | NvsBlobResult.ok v => v
  | NvsBlobResult.notFound => uninit
  | NvsBlobResult.errOther => 512

/-! ## Volume geometry and the file table (ghostfat.c, macros and `info[]`) -/

/-- ghostfat.c `UF2_DIV_CEIL`. -/
def divCeil (v d : Nat) : Nat :=
  v / d + (if v % d ≠ 0 then 1 else 0)

/-- Read-side environment: configuration constants and external
collaborators fixed before `uf2_read_block` runs.
`sectorsPerCluster` models `CFG_UF2_SECTORS_PER_CLUSTER` and
`totalSectors` models `CFG_UF2_NUM_BLOCKS` (both from config headers
outside the given sources). `flashSize` is `_flash_size` (from
`board_flash_size()`), `measurementFlashSize` is `_measurement_flash_size`
(from `get_measurment_data_size_nvs`). `infoSize` is the final
`info[FID_INFO].size` = `txt_len` computed by `uf2_init` (it depends on
compile-date/version strings outside the sources). `infoContent`,
`measRead` and `flashRead` give the byte at an offset of the patched
`infoUf2File` buffer, of `board_measuremnt_data_read`, and of
`board_flash_read` respectively. The compile-timestamp fields model
`COMPILE_SECONDS_INT`, `COMPILE_DOS_TIME`, `COMPILE_DOS_DATE`. -/
structure Env where
  sectorsPerCluster : Nat
  totalSectors : Nat
  flashSize : Nat
  measurementFlashSize : Nat
  infoSize : Nat
  boardFlashAppStart : Nat
  boardFlashAddrZero : Nat
  boardFamilyId : Nat
  compileSecondsInt : Nat
  compileDosTime : Nat
  compileDosDate : Nat
  infoContent : Nat → Nat
  measRead : Nat → Nat
  flashRead : Nat → Nat

/-- `BPB_SECTOR_SIZE * BPB_SECTORS_PER_CLUSTER` (bytes per cluster). -/
def bytesPerCluster (e : Env) : Nat := 512 * e.sectorsPerCluster

/-- `TOTAL_CLUSTERS_ROUND_UP = UF2_DIV_CEIL(BPB_TOTAL_SECTORS, BPB_SECTORS_PER_CLUSTER)`. -/
def totalClustersRoundUp (e : Env) : Nat := divCeil e.totalSectors e.sectorsPerCluster

/-- `BPB_SECTORS_PER_FAT = UF2_DIV_CEIL(TOTAL_CLUSTERS_ROUND_UP, FAT_ENTRIES_PER_SECTOR)`
with `FAT_ENTRIES_PER_SECTOR = 256`. -/
def sectorsPerFat (e : Env) : Nat := divCeil (totalClustersRoundUp e) 256

/-- `FS_START_FAT0_SECTOR = BPB_RESERVED_SECTORS = 1`. -/
def fsStartFat0 : Nat := 1

/-- `FS_START_FAT1_SECTOR = FS_START_FAT0_SECTOR + BPB_SECTORS_PER_FAT`. -/
def fsStartFat1 (e : Env) : Nat := fsStartFat0 + sectorsPerFat e

/-- `FS_START_ROOTDIR_SECTOR = FS_START_FAT1_SECTOR + BPB_SECTORS_PER_FAT`. -/
def fsStartRootdir (e : Env) : Nat := fsStartFat1 e + sectorsPerFat e

/-- `FS_START_CLUSTERS_SECTOR = FS_START_ROOTDIR_SECTOR + ROOT_DIR_SECTOR_COUNT`
with `ROOT_DIR_SECTOR_COUNT = UF2_DIV_CEIL(64, 16) = 4`. -/
def fsStartClusters (e : Env) : Nat := fsStartRootdir e + 4

/-- `UF2_SECTOR_COUNT = _flash_size / UF2_FIRMWARE_BYTES_PER_SECTOR` (256). -/
def uf2SectorCount (e : Env) : Nat := e.flashSize / 256

/-- `UF2_BYTE_COUNT = UF2_SECTOR_COUNT * BPB_SECTOR_SIZE`. -/
def uf2ByteCount (e : Env) : Nat := uf2SectorCount e * 512

/-- `MEASUREMNT_SECOTR_COUNT = _measurement_flash_size / 256`. -/
def measSectorCount (e : Env) : Nat := e.measurementFlashSize / 256

/-- `MEASURMENT_BYTE_COUNT = MEASUREMNT_SECOTR_COUNT * BPB_SECTOR_SIZE`. -/
def measByteCount (e : Env) : Nat := measSectorCount e * 512

/-- ghostfat.c `indexFile` (the literal with `UF2_INDEX_URL` from
`ports/espressif/boards/enerty_module_m/board.h` substituted). -/
def indexFile : String :=
  "<!doctype html>\n<html><body><script>\nlocation.replace(\"https://www.google.com/search?q=ENERTY+module+m\");\n</script></body></html>\n"

/-- ghostfat.c `test_csv_data`. -/
def test_csv_data : String :=
  "time,CT1,CT2,CT3\n0,0,0,0\n1,1,1,1\n2,2,2,2\n3,3,3,3\n4,4,4,4\n5,5,5,5\n6,6,6,6\n7,7,7,7\n8,8,8,8\n9,9,9,9\n"

/-- Byte at offset `i` of a static string buffer (0 past the end). -/
def strByte (s : String) (i : Nat) : Nat :=
  (s.data.getD i (Char.ofNat 0)).toNat

/-- ghostfat.c `FileContent_t`: 11-character name, content pointer
(`none` models `NULL`, `some f` a static buffer read through `f`), byte
size, and the computed cluster range (both `uint16_t`). -/
structure FileContent where
  name : List Char
  content : Option (Nat → Nat)
  size : Nat
  cluster_start : Nat
  cluster_end : Nat

/-- Zero value used as the `getD` default for the file table. -/
def noFile : FileContent :=
  { name := [], content := none, size := 0, cluster_start := 0, cluster_end := 0 }

/-- `NUM_FILES` (the build has no `TINYUF2_FAVICON_HEADER`, so `info[]`
holds INFO_UF2.TXT, INDEX.HTM, TEST.CSV, MEASDAT.CSV, CURRENT.UF2). -/
def NUM_FILES : Nat := 5

/-- `FID_MEASURMENT_DATA = NUM_FILES - 2`. -/
def FID_MEASURMENT_DATA : Nat := NUM_FILES - 2

/-- `FID_UF2 = NUM_FILES - 1`. -/
def FID_UF2 : Nat := NUM_FILES - 1

/-- ghostfat.c `info[]` as it stands when `uf2_init` has finished:
`info[FID_INFO].size = txt_len`, `info[FID_MEASURMENT_DATA].size =
MEASURMENT_BYTE_COUNT`, `info[FID_UF2].size = UF2_BYTE_COUNT`; the static
sizes are `sizeof(literal) - 1` = the literal's length. MEASDAT.CSV and
CURRENT.UF2 have `content = NULL`. Cluster fields are filled in by
`init_starting_clusters`. -/
def baseFiles (e : Env) : List FileContent :=
  [ { name := "INFO_UF2TXT".data, content := some e.infoContent,
      size := e.infoSize, cluster_start := 0, cluster_end := 0 },
    { name := "INDEX   HTM".data, content := some (strByte indexFile),
      size := indexFile.length, cluster_start := 0, cluster_end := 0 },
    { name := "TEST    CSV".data, content := some (strByte test_csv_data),
      size := test_csv_data.length, cluster_start := 0, cluster_end := 0 },
    { name := "MEASDAT CSV".data, content := none,
      size := measByteCount e, cluster_start := 0, cluster_end := 0 },
    { name := "CURRENT UF2".data, content := none,
      size := uf2ByteCount e, cluster_start := 0, cluster_end := 0 } ]

/-- One step of the `init_starting_clusters` loop, starting at cluster
`sc`: `cluster_end = start_cluster + UF2_DIV_CEIL(size, bytes_per_cluster) - 1`
stored into a `uint16_t`, then `start_cluster = cluster_end + 1` likewise.
The `+ 65535` before `% 65536` realizes the `- 1` without `Nat`
truncation: it agrees with the C `uint32_t` subtraction followed by the
`uint16_t` store (including the `sc = 0`, `size = 0` corner, where C
wraps to 65535). -/
def allocFrom (bpc : Nat) : Nat → List FileContent → List FileContent
  | _, [] => []
  | sc, f :: rest =>
    let ce := (sc + divCeil f.size bpc + 65535) % 65536
    { f with cluster_start := sc, cluster_end := ce } ::
      allocFrom bpc ((ce + 1) % 65536) rest

/-- ghostfat.c `init_starting_clusters`: walk `info[]` in order starting
at cluster 2. -/
def init_starting_clusters (bpc : Nat) (files : List FileContent) : List FileContent :=
  allocFrom bpc 2 files

/-- The file table with cluster ranges assigned (state after `uf2_init`). -/
def fileTable (e : Env) : List FileContent :=
  init_starting_clusters (bytesPerCluster e) (baseFiles e)

/-- `info[FID_UF2].cluster_end + 1` (the `firstUnusedCluster` local of the
FAT branch of `uf2_read_block`). -/
def firstUnusedCluster (e : Env) : Nat :=
  ((fileTable e).getD FID_UF2 noFile).cluster_end + 1

/-- The scan loop of `info_index_of`: first file (in table order) whose
cluster range contains `cluster`. -/
def info_index_scan (cluster : Nat) : List FileContent → Nat → Option Nat
  | [], _ => none
  | f :: rest, i =>
    if f.cluster_start ≤ cluster ∧ cluster ≤ f.cluster_end then some i
    else info_index_scan cluster rest (i + 1)

/-- ghostfat.c `info_index_of`: clusters at or beyond 0xFFF0, and clusters
in no file's range, fall back to `FID_UF2` (the last file). -/
def info_index_of (files : List FileContent) (cluster : Nat) : Nat :=
  if 0xFFF0 ≤ cluster then files.length - 1
  else (info_index_scan cluster files 0).getD (files.length - 1)

/-! ## FAT table synthesis (ghostfat.c, uf2_read_block FAT branch) -/

/-- Default fill of the FAT-entry loop of `uf2_read_block`: for entry `i`
of FAT-relative sector `rel`, cluster `rel * 256 + i` maps to 0 when at or
past `firstUnusedCluster`, else to `cluster + 1` truncated to `uint16_t`. -/
def fatDefault (e : Env) (rel : Nat) : Nat → Nat := fun i =>
  if firstUnusedCluster e ≤ rel * 256 + i then 0
  else (rel * 256 + i + 1) % 65536

/-- Exception 1 of the FAT branch: on the first FAT sector, entry 0 gets
the bytes `data[0] = 0xF8` (media descriptor), `data[1] = 0xff` — i.e. the
16-bit little-endian value 0xFFF8 — and entry 1 is forced to
`FAT_END_OF_CHAIN` (0xFFFF). -/
def fatExc1 (rel : Nat) (d : Nat → Nat) : Nat → Nat :=
  if rel = 0 then upd (upd d 0 0xFFF8) 1 0xFFFF else d

/-- Exception 2 of the FAT branch: for every file whose `cluster_end`
falls inside this sector's 256-cluster window, overwrite that entry with
`FAT_END_OF_CHAIN`. -/
def fatExc2 (files : List FileContent) (rel : Nat) (d : Nat → Nat) : Nat → Nat :=
  files.foldl
    (fun acc f =>
      if rel * 256 ≤ f.cluster_end ∧ f.cluster_end - rel * 256 < 256 then
        upd acc (f.cluster_end - rel * 256) 0xFFFF
      else acc)
    d

/-- The 16-bit FAT entries of FAT-relative sector `rel`: default fill,
then exception 1, then exception 2, exactly in the order of the C code. -/
def fatEntries (e : Env) (rel : Nat) : Nat → Nat :=
  fatExc2 (fileTable e) rel (fatExc1 rel (fatDefault e rel))

/-- Little-endian serialization of the FAT entries into sector bytes
(`uint16_t* data16 = (uint16_t*) data`). -/
def fatBytes (e : Env) (rel : Nat) : Nat → Nat := fun b =>
  let v := fatEntries e rel (b / 2)
  if b % 2 = 0 then v % 256 else v / 256 % 256

/-! ## Root directory synthesis (ghostfat.c, uf2_read_block root-dir branch) -/

/-- ghostfat.c `DirEntry` (32 packed bytes; `reserved` is left 0 by the
code and omitted). -/
structure DirEntry where
  name : List Char
  attrs : Nat
  createTimeFine : Nat
  createTime : Nat
  createDate : Nat
  lastAccessDate : Nat
  highStartCluster : Nat
  updateTime : Nat
  updateDate : Nat
  startCluster : Nat
  size : Nat

/-- All-zero directory entry, the `getD` default (sector slots past the
synthesized entries keep their `memset` zeros and are serialized as zeros
directly, so this default is never serialized). -/
def emptyDirEntry : DirEntry :=
  { name := [], attrs := 0, createTimeFine := 0, createTime := 0, createDate := 0,
    lastAccessDate := 0, highStartCluster := 0, updateTime := 0, updateDate := 0,
    startCluster := 0, size := 0 }

/-- ghostfat.c `padded_memcpy`: copy `len` characters, replacing the NUL
terminator and everything after it by spaces (the source pointer stops
advancing at the NUL). -/
def padded_memcpy (src : List Char) (len : Nat) : List Char :=
  match len, src with
  | 0, _ => []
  | n + 1, [] => Char.ofNat 32 :: padded_memcpy [] n
  | n + 1, c :: rest =>
    if c = Char.ofNat 0 then Char.ofNat 32 :: padded_memcpy (c :: rest) n
    else c :: padded_memcpy rest n

/-- The volume-label entry placed first in root-directory sector 0:
`padded_memcpy(d->name, BootBlock.VolumeLabel, 11)` with
`UF2_VOLUME_LABEL = "ENERTYMBOOT"` (board.h) and `attrs = 0x28`; all other
fields keep their `memset` zeros. -/
def volumeLabelEntry : DirEntry :=
  { emptyDirEntry with name := padded_memcpy "ENERTYMBOOT".data 11, attrs := 0x28 }

/-- The directory entry synthesized for one file by the root-directory
loop of `uf2_read_block`. Note the `size` field: `inf->content ?
inf->size : UF2_BYTE_COUNT` — any file with a NULL content pointer
(CURRENT.UF2 *and* MEASDAT.CSV) reports the firmware-image byte count. -/
def mkDirEntry (e : Env) (f : FileContent) : DirEntry :=
  { name := padded_memcpy f.name 11,
    attrs := 0,
    createTimeFine := e.compileSecondsInt % 2 * 100,
    createTime := e.compileDosTime,
    createDate := e.compileDosDate,
    lastAccessDate := e.compileDosDate,
    highStartCluster := f.cluster_start >>> 16,
    updateTime := e.compileDosTime,
    updateDate := e.compileDosDate,
    startCluster := f.cluster_start % 65536,
    size := match f.content with
            | some _ => f.size
            | none => uf2ByteCount e }

/-- The synthesized entries of root-directory-relative sector `rel`:
sector 0 starts with the volume label (15 file slots remain of the 16
per-sector entries); later sectors start at file index
`16 * rel - 1` with 16 slots. -/
def rootDirEntries (e : Env) (rel : Nat) : List DirEntry :=
  if rel = 0 then
    volumeLabelEntry :: ((fileTable e).take 15).map (mkDirEntry e)
  else
    (((fileTable e).drop (16 * rel - 1)).take 16).map (mkDirEntry e)

/-- Byte `off - base` (little-endian) of the integer field value `v`. -/
def fieldByte (v off base : Nat) : Nat := v >>> (8 * (off - base)) % 256

/-- Byte `j` of a packed 32-byte `DirEntry`. -/
def dirEntryByte (d : DirEntry) (j : Nat) : Nat :=
  if j < 11 then (d.name.getD j (Char.ofNat 0)).toNat
  else if j = 11 then d.attrs % 256
  else if j = 12 then 0
  else if j = 13 then d.createTimeFine % 256
  else if j < 16 then fieldByte d.createTime j 14
  else if j < 18 then fieldByte d.createDate j 16
  else if j < 20 then fieldByte d.lastAccessDate j 18
  else if j < 22 then fieldByte d.highStartCluster j 20
  else if j < 24 then fieldByte d.updateTime j 22
  else if j < 26 then fieldByte d.updateDate j 24
  else if j < 28 then fieldByte d.startCluster j 26
  else if j < 32 then fieldByte d.size j 28
  else 0

/-- Bytes of a root-directory sector: synthesized entries serialized in
place, the remaining slots still zero from the `memset`. -/
def rootDirBytes (e : Env) (rel : Nat) : Nat → Nat := fun b =>
  let es := rootDirEntries e rel
  if b / 32 < es.length then dirEntryByte (es.getD (b / 32) emptyDirEntry) (b % 32)
  else 0

/-! ## Boot sector (ghostfat.c, `BootBlock` and the block 0 branch) -/

/-- Byte `j` of the packed 62-byte `FAT_BootBlock` initializer of
ghostfat.c (offsets follow the packed struct layout; bytes past the
struct keep their `memset` zeros). -/
def bootStructByte (e : Env) (j : Nat) : Nat :=
  if j = 0 then 0xeb else if j = 1 then 0x3c else if j = 2 then 0x90
  else if j < 11 then strByte "UF2 UF2 " (j - 3)
  else if j < 13 then fieldByte 512 j 11
  else if j = 13 then e.sectorsPerCluster % 256
  else if j < 16 then fieldByte 1 j 14
  else if j = 16 then 2
  else if j < 19 then fieldByte 64 j 17
  else if j < 21 then fieldByte (if 0xFFFF < e.totalSectors then 0 else e.totalSectors) j 19
  else if j = 21 then 0xF8
  else if j < 24 then fieldByte (sectorsPerFat e % 65536) j 22
  else if j < 26 then fieldByte 1 j 24
  else if j < 28 then fieldByte 1 j 26
  else if j < 32 then 0
  else if j < 36 then fieldByte (if 0xFFFF < e.totalSectors then e.totalSectors else 0) j 32
  else if j = 36 then 0x80
  else if j = 37 then 0
  else if j = 38 then 0x29
  else if j < 43 then fieldByte 0x00420042 j 39
  else if j < 54 then strByte "ENERTYMBOOT" (j - 43)
  else if j < 62 then strByte "FAT16   " (j - 54)
  else 0

/-- The boot-sector bytes: the copied `BootBlock` plus the 0x55 0xAA
signature stored at offsets 510/511. -/
def bootBytes (e : Env) : Nat → Nat :=
  upd (upd (bootStructByte e) 510 0x55) 511 0xaa

/-! ## Data region (ghostfat.c, uf2_read_block data branch) -/

/-- Static-content case of the data branch: copy up to one sector of the
file's remaining bytes from offset `fileRelSector * 512`; everything else
stays zero. -/
def staticFileByte (inf : FileContent) (fileRelSector : Nat) : Nat → Nat := fun i =>
  let off := fileRelSector * 512
  if off < inf.size ∧ i < min (inf.size - off) 512 then
    (inf.content.getD (fun _ => 0)) (off + i)
  else 0

/-- Measurement-data case: same windowing, bytes obtained through
`board_measuremnt_data_read(offset, data, bytesToCopy)`. -/
def measFileByte (e : Env) (inf : FileContent) (fileRelSector : Nat) : Nat → Nat := fun i =>
  let off := fileRelSector * 512
  if off < inf.size ∧ i < min (inf.size - off) 512 then e.measRead (off + i)
  else 0

/-- CURRENT.UF2 case: when the target address is still inside the live
flash range, synthesize a full UF2 block (magics, indices, counts,
address, a 256-byte payload read from flash); otherwise the sector stays
all zero. -/
def uf2SynthByte (e : Env) (fileRelSector : Nat) : Nat → Nat := fun i =>
  let addr := e.boardFlashAppStart + fileRelSector * 256
  if addr < e.boardFlashAddrZero + e.flashSize then
    if i < 4 then fieldByte UF2_MAGIC_START0 i 0
    else if i < 8 then fieldByte UF2_MAGIC_START1 i 4
    else if i < 12 then fieldByte UF2_FLAG_FAMILYID i 8
    else if i < 16 then fieldByte (addr % 4294967296) i 12
    else if i < 20 then fieldByte 256 i 16
    else if i < 24 then fieldByte (fileRelSector % 4294967296) i 20
    else if i < 28 then fieldByte (uf2SectorCount e % 4294967296) i 24
    else if i < 32 then fieldByte (e.boardFamilyId % 4294967296) i 28
    else if i < 288 then e.flashRead (addr + (i - 32))
    else if i < 508 then 0
    else if i < 512 then fieldByte UF2_MAGIC_END i 508
    else 0
  else 0

/-- The data-region branch of `uf2_read_block` for data-region-relative
sector `rel`: resolve the owning file through `info_index_of`, compute the
file-relative sector, and dispatch on the file id exactly as the C code
does (`fid != FID_UF2 && fid != FID_MEASURMENT_DATA` → static copy,
`fid == FID_UF2` → synthesized firmware block, else measurement data). -/
def dataBytes (e : Env) (rel : Nat) : Nat → Nat :=
  let files := fileTable e
  let fid := info_index_of files (2 + rel / e.sectorsPerCluster)
  let inf := files.getD fid noFile
  let fileRelSector := rel - (inf.cluster_start - 2) * e.sectorsPerCluster
  if fid ≠ FID_UF2 ∧ fid ≠ FID_MEASURMENT_DATA then staticFileByte inf fileRelSector
  else if fid = FID_UF2 then uf2SynthByte e fileRelSector
  else measFileByte e inf fileRelSector

/-- Per-byte value of the sector `uf2_read_block` synthesizes for
`block_no`: boot sector, FAT copies (the second copy is served by
subtracting `BPB_SECTORS_PER_FAT`), root directory, data region; any
sector at or past `BPB_TOTAL_SECTORS` keeps only the `memset` zeros. -/
def sectorByte (e : Env) (block_no : Nat) : Nat → Nat :=
  if block_no = 0 then bootBytes e
  else if block_no < fsStartRootdir e then
    let rel0 := block_no - fsStartFat0
    let rel := if sectorsPerFat e ≤ rel0 then rel0 - sectorsPerFat e else rel0
    fatBytes e rel
  else if block_no < fsStartClusters e then
    rootDirBytes e (block_no - fsStartRootdir e)
  else if block_no < e.totalSectors then
    dataBytes e (block_no - fsStartClusters e)
  else fun _ => 0

/-- ghostfat.c `uf2_read_block`: the full 512-byte sector. -/
def uf2_read_block (e : Env) (block_no : Nat) : List Nat :=
  (List.range 512).map (sectorByte e block_no)

/-- The per-file cluster counts `UF2_DIV_CEIL(size, bytes_per_cluster)`
reserved by `init_starting_clusters`. -/
def clusterCounts (bpc : Nat) (files : List FileContent) : List Nat :=
  files.map (fun f => divCeil f.size bpc)

/-- Sum of the first `i` elements of a list (0 past the end); used to give
the allocator's cluster ranges in closed form. -/
def preSum : List Nat → Nat → Nat
  | _, 0 => 0
  | [], _ + 1 => 0
  | a :: l, i + 1 => a + preSum l i

/-! ## Concrete instances used by witnesses and counterexamples -/

/-- A small concrete read environment: 1 sector per cluster, 600 total
sectors (3 sectors per FAT, data region starts at sector 11), 256 bytes
of firmware flash, 256 bytes of measurement data. -/
def envSmall : Env :=
  { sectorsPerCluster := 1, totalSectors := 600, flashSize := 256,
    measurementFlashSize := 256, infoSize := 10, boardFlashAppStart := 0,
    boardFlashAddrZero := 0, boardFamilyId := 0, compileSecondsInt := 0,
    compileDosTime := 0, compileDosDate := 0, infoContent := fun _ => 0,
    measRead := fun _ => 0, flashRead := fun _ => 0 }

/-- A concrete read environment with 1 MiB of firmware flash and 1 KiB of
measurement data, exhibiting the MEASDAT.CSV directory-size divergence. -/
def envMeas : Env :=
  { sectorsPerCluster := 1, totalSectors := 0x8000, flashSize := 1048576,
    measurementFlashSize := 1024, infoSize := 100, boardFlashAppStart := 0,
    boardFlashAddrZero := 0, boardFamilyId := 0, compileSecondsInt := 0,
    compileDosTime := 0, compileDosDate := 0, infoContent := fun _ => 0,
    measRead := fun _ => 0, flashRead := fun _ => 0 }

/-- A serial-number overlay that matches no magic (unused on the UF2 path). -/
def serialNone : SerialNumBlock :=
  { magicStart0 := 0, magicStart1 := 0, magicEnd := 0, serialNumber := fun _ => 0 }

/-- Concrete write-side configuration: up to 1000 blocks, family id 42. -/
def weW : WriteEnv :=
  { maxBlocks := 1000, boardFamilyId := 42, serialMagic0 := 1, serialMagic1 := 2,
    serialMagicEnd := 3, serialnumNvsOk := true }

/-- A valid UF2 firmware block: family 42, block 0 of 10. -/
def uf2BlockW : UF2Block :=
  { magicStart0 := UF2_MAGIC_START0, magicStart1 := UF2_MAGIC_START1,
    flags := UF2_FLAG_FAMILYID, targetAddr := 0, payloadSize := 256,
    blockNo := 0, numBlocks := 10, familyID := 42, payload := fun _ => 0,
    magicEnd := UF2_MAGIC_END }

/-- Write input wrapping `uf2BlockW`. -/
def inputW : WriteInput := { uf2 := uf2BlockW, serial := serialNone }

/-- Write input declaring a total of 1 block (completes in one write). -/
def inputOne : WriteInput :=
  { uf2 := { uf2BlockW with numBlocks := 1 }, serial := serialNone }

/-- Write input whose family id (7) does not match `weW`'s 42. -/
def inputMismatch : WriteInput :=
  { uf2 := { uf2BlockW with familyID := 7 }, serial := serialNone }

/-- Fresh write state (session start). -/
def stZero : WriteState := { numBlocks := 0, numWritten := 0, writtenMask := fun _ => 0 }

/-- Write state in which block 0's bit is already set. -/
def stBitSet : WriteState :=
  { numBlocks := 10, numWritten := 1, writtenMask := fun p => if p = 0 then 1 else 0 }

/-- Concrete file list for the allocator witness: sizes 1024, 0 and 5
bytes (the middle entry reserves zero clusters). -/
def filesW : List FileContent :=
  [ { name := [], content := none, size := 1024, cluster_start := 0, cluster_end := 0 },
    { name := [], content := none, size := 0, cluster_start := 0, cluster_end := 0 },
    { name := [], content := none, size := 5, cluster_start := 0, cluster_end := 0 } ]

/-! ## Write-protocol theorems -/

/-- C7: a block that validates as a UF2 firmware block but whose family id
differs from the device's `BOARD_UF2_FAMILY_ID` is rejected with -1, the
state is unchanged, and no external call (in particular no flash write) is
made. -/
theorem C7_family_mismatch (we : WriteEnv) (block_no : Nat) (input : WriteInput)
    (state : WriteState)
    (hv : is_uf2_block input.uf2 = true)
    (hf : input.uf2.familyID ≠ we.boardFamilyId) :
    uf2_write_block we block_no input state = (-1, state, []) := by
  unfold uf2_write_block
  simp [hv, hf]

/-- C7 witness: family id 7 against device family 42. -/
theorem C7_family_mismatch_witness :
    uf2_write_block weW 0 inputMismatch stZero = (-1, stZero, []) :=
  C7_family_mismatch weW 0 inputMismatch stZero (by decide) (by decide)

/-- C10: the sector number argument of `uf2_write_block` has no influence
on its behaviour — two calls differing only in `block_no` yield the same
return value, the same final `WriteState` and the same external calls
(the C code discards the argument with `(void) block_no`; the UF2 block's
own `blockNo` field, which does matter, comes from the data buffer). -/
theorem C10_blockno_irrelevant (we : WriteEnv) (b1 b2 : Nat) (input : WriteInput)
    (state : WriteState) :
    uf2_write_block we b1 input state = uf2_write_block we b2 input state := rfl

/-- C3: a valid firmware block declaring a nonzero total that differs from
the state's current total makes the state adopt the new total, unless the
state already held a different nonzero total or the new total reaches the
`MAX_BLOCKS` limit, in which case the total becomes the 0xffffffff
"unknown/oversized" sentinel; either way the call returns 512. -/
theorem C3_total_adoption (we : WriteEnv) (block_no : Nat) (input : WriteInput)
    (state : WriteState)
    (hv : is_uf2_block input.uf2 = true)
    (hf : input.uf2.familyID = we.boardFamilyId)
    (hz : input.uf2.numBlocks ≠ 0)
    (hd : input.uf2.numBlocks ≠ state.numBlocks) :
    (uf2_write_block we block_no input state).1 = 512 ∧
    (uf2_write_block we block_no input state).2.1.numBlocks =
      (if we.maxBlocks ≤ input.uf2.numBlocks ∨ state.numBlocks ≠ 0 then 4294967295
       else input.uf2.numBlocks) := by
  have hd2 : state.numBlocks ≠ input.uf2.numBlocks := fun h => hd h.symm
  unfold uf2_write_block
  simp only [hv, Bool.not_true, Bool.false_eq_true, if_false, if_pos hf, if_pos hz,
    if_pos hd2]
  split_ifs <;> simp_all

/-- C3 witness: fresh state, block declaring total 10 with limit 1000 —
the call returns 512 and the state adopts total 10. -/
theorem C3_total_adoption_witness :
    (uf2_write_block weW 0 inputW stZero).1 = 512 ∧
    (uf2_write_block weW 0 inputW stZero).2.1.numBlocks = 10 := by
  have h := C3_total_adoption weW 0 inputW stZero (by decide) (by decide)
    (by decide) (by decide)
  refine ⟨h.1, ?_⟩
  rw [h.2]
  decide

/-- C6: on a valid firmware block with a supported index, a block index
whose bit is already set leaves the accepted-block counter unchanged, and
the counter changes only by an unset-to-set transition of that bit (in
which case it increments by exactly one). -/
theorem C6_write_idempotent (we : WriteEnv) (block_no : Nat) (input : WriteInput)
    (state : WriteState)
    (hv : is_uf2_block input.uf2 = true)
    (hf : input.uf2.familyID = we.boardFamilyId)
    (hb : input.uf2.blockNo < we.maxBlocks) :
    (state.writtenMask (input.uf2.blockNo / 8) &&& 1 <<< (input.uf2.blockNo % 8) ≠ 0 →
      (uf2_write_block we block_no input state).2.1.numWritten = state.numWritten) ∧
    ((uf2_write_block we block_no input state).2.1.numWritten ≠ state.numWritten →
      state.writtenMask (input.uf2.blockNo / 8) &&& 1 <<< (input.uf2.blockNo % 8) = 0 ∧
      (uf2_write_block we block_no input state).2.1.numWritten = state.numWritten + 1) := by
  unfold uf2_write_block
  simp only [hv, Bool.not_true, Bool.false_eq_true, if_false, if_pos hf]
  split_ifs <;> simp_all

/-- C6 witness: resubmitting block 0 when its bit is already set leaves
the counter at 1. -/
theorem C6_write_idempotent_witness :
    (uf2_write_block weW 0 inputW stBitSet).2.1.numWritten = 1 := by
  have h := C6_write_idempotent weW 0 inputW stBitSet (by decide) (by decide) (by decide)
  simpa [stBitSet] using h.1 (by decide)

/-- C5: on a valid firmware block with nonzero declared total and a
supported index, if the updated accepted-block counter meets or exceeds
the state's (updated) expected total, a `board_flash_flush()` call is
issued and the call returns the accepted outcome 512. -/
theorem C5_flush_on_complete (we : WriteEnv) (block_no : Nat) (input : WriteInput)
    (state : WriteState)
    (hv : is_uf2_block input.uf2 = true)
    (hf : input.uf2.familyID = we.boardFamilyId)
    (hz : input.uf2.numBlocks ≠ 0)
    (hb : input.uf2.blockNo < we.maxBlocks)
    (hdone : (uf2_write_block we block_no input state).2.1.numBlocks ≤
             (uf2_write_block we block_no input state).2.1.numWritten) :
    ExtCall.flashFlush ∈ (uf2_write_block we block_no input state).2.2 ∧
    (uf2_write_block we block_no input state).1 = 512 := by
  revert hdone
  unfold uf2_write_block
  simp only [hv, Bool.not_true, Bool.false_eq_true, if_false, if_pos hf]
  split_ifs <;> simp_all

/-- C5 witness: a one-block image written into a fresh state completes
and triggers the flush. -/
theorem C5_flush_on_complete_witness :
    ExtCall.flashFlush ∈ (uf2_write_block weW 0 inputOne stZero).2.2 ∧
    (uf2_write_block weW 0 inputOne stZero).1 = 512 :=
  C5_flush_on_complete weW 0 inputOne stZero (by decide) (by decide) (by decide)
    (by decide) (by decide)

/-- C4: `get_measurment_data_size_nvs` does return the documented fallback
512 on a malformed read (any error other than not-found), but on an
*absent* key it returns the uninitialized local `size` — an indeterminate
value, not 512: the same absent-key call yields 7 or 9 depending on what
happens to sit in the uninitialized variable. -/
theorem C4_nvs_absent_returns_uninit :
    get_measurment_data_size_nvs NvsBlobResult.errOther 0 = 512 ∧
    get_measurment_data_size_nvs NvsBlobResult.errOther 99 = 512 ∧
    get_measurment_data_size_nvs NvsBlobResult.notFound 7 = 7 ∧
    get_measurment_data_size_nvs NvsBlobResult.notFound 9 = 9 := by
  decide

/-! ## Root-directory size field (claim C1) -/

/-- C1: in root-directory sector 0 the MEASDAT.CSV entry (slot 4, after
the volume label) reports `UF2_BYTE_COUNT` — the firmware image's
2097152 bytes in this configuration — instead of the measurement file's
own 2048-byte size, because `d->size = inf->content ? inf->size :
UF2_BYTE_COUNT` and MEASDAT.CSV's content pointer is NULL. -/
theorem C1_measdat_dirent_size :
    ((rootDirEntries envMeas 0).getD 4 emptyDirEntry).name = "MEASDAT CSV".data ∧
    ((rootDirEntries envMeas 0).getD 4 emptyDirEntry).size = 2097152 ∧
    ((fileTable envMeas).getD FID_MEASURMENT_DATA noFile).size = 2048 ∧
    ((rootDirEntries envMeas 0).getD 4 emptyDirEntry).size ≠
      ((fileTable envMeas).getD FID_MEASURMENT_DATA noFile).size := by
  decide

/-! ## Allocator lemmas (init_starting_clusters) -/

/-- The allocator keeps the list length. -/
theorem allocFrom_length (bpc : Nat) (files : List FileContent) :
    ∀ sc, (allocFrom bpc sc files).length = files.length := by
  induction files with
  | nil => intro sc; rfl
  | cons f fs ih => intro sc; simp [allocFrom, ih]

/-- `preSum l 0 = 0`. -/
theorem preSum_zero (l : List Nat) : preSum l 0 = 0 := by
  cases l <;> rfl

/-- Unfolding one step of the prefix sum inside the list. -/
theorem preSum_succ_getD (l : List Nat) :
    ∀ i, i < l.length → preSum l (i + 1) = preSum l i + l.getD i 0 := by
  induction l with
  | nil => intro i h; simp at h
  | cons a t ih =>
    intro i h
    cases i with
    | zero => simp [preSum, preSum_zero]
    | succ j =>
      have := ih j (by simpa using h)
      simp only [preSum, List.getD_cons_succ]
      omega

/-- Prefix sums are monotone. -/
theorem preSum_mono (l : List Nat) : ∀ i j, i ≤ j → preSum l i ≤ preSum l j := by
  induction l with
  | nil => intro i j _; cases i <;> cases j <;> simp [preSum]
  | cons a t ih =>
    intro i j hij
    cases i with
    | zero =>
      cases j with
      | zero => exact Nat.le_refl _
      | succ k => simp [preSum]
    | succ i2 =>
      cases j with
      | zero => omega
      | succ j2 =>
        simp only [preSum]
        exact Nat.add_le_add_left (ih i2 j2 (by omega)) a

/-- Prefix sums are bounded by the total sum. -/
theorem preSum_le_sum (l : List Nat) : ∀ i, preSum l i ≤ l.sum := by
  induction l with
  | nil => intro i; cases i <;> simp [preSum]
  | cons a t ih =>
    intro i
    cases i with
    | zero => simp [preSum]
    | succ k =>
      simp only [preSum, List.sum_cons]
      exact Nat.add_le_add_left (ih k) a

/-- Element `i` of `clusterCounts` is the ceil-count of file `i`. -/
theorem clusterCounts_getD (bpc : Nat) (files : List FileContent) :
    ∀ i, i < files.length →
      (clusterCounts bpc files).getD i 0 = divCeil ((files.getD i noFile).size) bpc := by
  induction files with
  | nil => intro i h; simp at h
  | cons f fs ih =>
    intro i h
    cases i with
    | zero => simp [clusterCounts]
    | succ j => simpa [clusterCounts] using ih j (by simpa using h)

/-- Closed form of the allocator: starting at cluster `sc`, and as long as
the total cluster demand keeps every `uint16_t` store below 65536, file
`i` starts at `sc` plus the clusters of the files before it and its
(end + 1) adds its own cluster count. -/
theorem allocFrom_get (bpc : Nat) :
    ∀ (files : List FileContent) (sc i : Nat), 1 ≤ sc →
      sc + (clusterCounts bpc files).sum ≤ 65535 → i < files.length →
      ((allocFrom bpc sc files).getD i noFile).cluster_start
          = sc + preSum (clusterCounts bpc files) i ∧
      ((allocFrom bpc sc files).getD i noFile).cluster_end + 1
          = sc + preSum (clusterCounts bpc files) (i + 1) := by
  intro files
  induction files with
  | nil => intro sc i _ _ h; simp at h
  | cons f fs ih =>
    intro sc i h1 h2 hi
    have hsum : (clusterCounts bpc (f :: fs)).sum
        = divCeil f.size bpc + (clusterCounts bpc fs).sum := by
      simp [clusterCounts]
    have hce : (sc + divCeil f.size bpc + 65535) % 65536
        = sc + divCeil f.size bpc - 1 := by omega
    cases i with
    | zero =>
      refine ⟨by simp [allocFrom, preSum, preSum_zero], ?_⟩
      simp only [allocFrom, List.getD_cons_zero, hce, preSum, preSum_zero]
      omega
    | succ j =>
      have hsc2 : ((sc + divCeil f.size bpc + 65535) % 65536 + 1) % 65536
          = sc + divCeil f.size bpc := by omega
      have hj : j < fs.length := by simpa using hi
      have := ih (sc + divCeil f.size bpc) j (by omega) (by omega) hj
      simp only [allocFrom, List.getD_cons_succ, hce]
      rw [show sc + divCeil f.size bpc - 1 + 1 = sc + divCeil f.size bpc by omega,
        show (sc + divCeil f.size bpc) % 65536 = sc + divCeil f.size bpc by omega]
      constructor
      · rw [this.1]
        simp [clusterCounts, preSum]
        omega
      · rw [this.2]
        simp [clusterCounts, preSum]
        omega

/-- Cluster ranges are a function of the sizes alone. -/
theorem allocFrom_sizes_eq (bpc : Nat) :
    ∀ (files files2 : List FileContent) (sc : Nat),
      files.map FileContent.size = files2.map FileContent.size →
      (allocFrom bpc sc files).map (fun f => (f.cluster_start, f.cluster_end))
        = (allocFrom bpc sc files2).map (fun f => (f.cluster_start, f.cluster_end)) := by
  intro files
  induction files with
  | nil =>
    intro files2 sc h
    cases files2 with
    | nil => rfl
    | cons g gs => simp at h
  | cons f fs ih =>
    intro files2 sc h
    cases files2 with
    | nil => simp at h
    | cons g gs =>
      simp only [List.map_cons, List.cons.injEq] at h
      simp only [allocFrom, List.map_cons, h.1, List.cons.injEq]
      exact ⟨trivial, ih gs _ h.2⟩

/-- C9: `init_starting_clusters` is deterministic (cluster ranges are a
function of the file sizes), the first file starts at cluster 2, ranges
are contiguous (each file starts right after the previous file's end) and
non-overlapping, and a zero-size entry reserves zero clusters (its end is
its start minus one) with the next file inheriting its start cluster —
all provided the total cluster demand fits the `uint16_t` fields. -/
theorem C9_cluster_allocation (bpc : Nat) (files : List FileContent)
    (hw : 2 + (clusterCounts bpc files).sum ≤ 65535) :
    (∀ files2, files.map FileContent.size = files2.map FileContent.size →
      (init_starting_clusters bpc files).map (fun f => (f.cluster_start, f.cluster_end))
        = (init_starting_clusters bpc files2).map (fun f => (f.cluster_start, f.cluster_end))) ∧
    (0 < files.length →
      ((init_starting_clusters bpc files).getD 0 noFile).cluster_start = 2) ∧
    (∀ i, i + 1 < files.length →
      ((init_starting_clusters bpc files).getD (i + 1) noFile).cluster_start
        = ((init_starting_clusters bpc files).getD i noFile).cluster_end + 1) ∧
    (∀ i j c, i < files.length → j < files.length →
      ((init_starting_clusters bpc files).getD i noFile).cluster_start ≤ c →
      c ≤ ((init_starting_clusters bpc files).getD i noFile).cluster_end →
      ((init_starting_clusters bpc files).getD j noFile).cluster_start ≤ c →
      c ≤ ((init_starting_clusters bpc files).getD j noFile).cluster_end →
      i = j) ∧
    (∀ i, i < files.length → (files.getD i noFile).size = 0 →
      ((init_starting_clusters bpc files).getD i noFile).cluster_end + 1
        = ((init_starting_clusters bpc files).getD i noFile).cluster_start ∧
      (i + 1 < files.length →
        ((init_starting_clusters bpc files).getD (i + 1) noFile).cluster_start
          = ((init_starting_clusters bpc files).getD i noFile).cluster_start)) := by
  have hget := fun i hi => allocFrom_get bpc files 2 i (by omega) hw hi
  refine ⟨fun files2 h => allocFrom_sizes_eq bpc files files2 2 h, ?_, ?_, ?_, ?_⟩
  · intro hlen
    rw [init_starting_clusters, (hget 0 hlen).1, preSum_zero]
  · intro i hi
    rw [init_starting_clusters, (hget (i + 1) hi).1, (hget i (by omega)).2]
  · intro i j c hi hj hi1 hi2 hj1 hj2
    by_contra hne
    rw [init_starting_clusters, (hget i hi).1] at hi1
    rw [init_starting_clusters] at hi2
    rw [init_starting_clusters, (hget j hj).1] at hj1
    rw [init_starting_clusters] at hj2
    have hie := (hget i hi).2
    have hje := (hget j hj).2
    rcases Nat.lt_or_ge i j with hij | hij
    · have hm : preSum (clusterCounts bpc files) (i + 1)
          ≤ preSum (clusterCounts bpc files) j := preSum_mono _ _ _ (by omega)
      omega
    · have hij2 : j < i := by omega
      have hm : preSum (clusterCounts bpc files) (j + 1)
          ≤ preSum (clusterCounts bpc files) i := preSum_mono _ _ _ (by omega)
      omega
  · intro i hi hz
    have hcc : (clusterCounts bpc files).getD i 0 = 0 := by
      rw [clusterCounts_getD bpc files i hi, hz]
      simp [divCeil]
    have hstep : preSum (clusterCounts bpc files) (i + 1)
        = preSum (clusterCounts bpc files) i := by
      rw [preSum_succ_getD _ i (by simpa [clusterCounts] using hi), hcc]
      omega
    refine ⟨?_, fun hi1 => ?_⟩
    · rw [init_starting_clusters, (hget i hi).2, (hget i hi).1, hstep]
    · rw [init_starting_clusters, (hget (i + 1) hi1).1, (hget i hi).1, hstep]

/-- C9 witness: files of sizes 1024, 0 and 5 bytes with 512-byte clusters —
the first file starts at 2, the second starts right after the first ends,
and (being zero-size) the third inherits the second's start cluster. -/
theorem C9_cluster_allocation_witness :
    ((init_starting_clusters 512 filesW).getD 0 noFile).cluster_start = 2 ∧
    ((init_starting_clusters 512 filesW).getD 1 noFile).cluster_start
      = ((init_starting_clusters 512 filesW).getD 0 noFile).cluster_end + 1 ∧
    ((init_starting_clusters 512 filesW).getD 2 noFile).cluster_start
      = ((init_starting_clusters 512 filesW).getD 1 noFile).cluster_start := by
  have h := C9_cluster_allocation 512 filesW (by decide)
  exact ⟨h.2.1 (by decide), h.2.2.1 0 (by decide),
    (h.2.2.2.2 1 (by decide) (by decide)).2 (by decide)⟩

/-! ## FAT synthesis lemmas -/

/-- The ceiling division covers the dividend. -/
theorem le_divCeil_mul (x d : Nat) (hd : 0 < d) : x ≤ divCeil x d * d := by
  have h1 : x = d * (x / d) + x % d := (Nat.div_add_mod x d).symm
  have h2 : x % d < d := Nat.mod_lt x hd
  by_cases h : x % d = 0
  · simp only [divCeil, h, ne_eq, not_true_eq_false, if_false, Nat.add_zero]
    rw [Nat.mul_comm] at h1
    omega
  · simp only [divCeil, ne_eq, h, not_false_eq_true, if_true]
    rw [Nat.add_mul, Nat.one_mul, Nat.mul_comm]
    omega

/-- Final value of an entry after the exception-2 fold: 0xFFFF exactly when
some file's `cluster_end` lands on index `i` of this sector, otherwise the
incoming value. -/
theorem fatExc2_apply (rel i : Nat) :
    ∀ (files : List FileContent) (d : Nat → Nat),
      fatExc2 files rel d i =
        if ∃ f ∈ files, rel * 256 ≤ f.cluster_end ∧ f.cluster_end - rel * 256 < 256 ∧
            f.cluster_end - rel * 256 = i
        then 65535 else d i := by
  intro files
  induction files with
  | nil => intro d; simp [fatExc2]
  | cons f fs ih =>
    intro d
    have hstep : fatExc2 (f :: fs) rel d = fatExc2 fs rel
        (if rel * 256 ≤ f.cluster_end ∧ f.cluster_end - rel * 256 < 256 then
          upd d (f.cluster_end - rel * 256) 65535 else d) := rfl
    rw [hstep, ih]
    by_cases hfs : ∃ g ∈ fs, rel * 256 ≤ g.cluster_end ∧ g.cluster_end - rel * 256 < 256 ∧
        g.cluster_end - rel * 256 = i
    · rw [if_pos hfs, if_pos]
      rw [List.exists_mem_cons_iff]
      exact Or.inr hfs
    · rw [if_neg hfs]
      by_cases h1 : rel * 256 ≤ f.cluster_end ∧ f.cluster_end - rel * 256 < 256
      · rw [if_pos h1]
        by_cases h2 : f.cluster_end - rel * 256 = i
        · rw [if_pos, upd, if_pos h2.symm]
          rw [List.exists_mem_cons_iff]
          exact Or.inl ⟨h1.1, h1.2, h2⟩
        · rw [if_neg, upd, if_neg (fun h => h2 h.symm)]
          rw [List.exists_mem_cons_iff]
          rintro (⟨_, _, hc⟩ | hc)
          · exact h2 hc
          · exact hfs hc
      · rw [if_neg h1, if_neg]
        rw [List.exists_mem_cons_iff]
        rintro (⟨ha, hb, _⟩ | hc)
        · exact h1 ⟨ha, hb⟩
        · exact hfs hc

/-- The `info_index_of` scan finds nothing when no file's range contains
the cluster. -/
theorem info_index_scan_none (cluster : Nat) :
    ∀ (files : List FileContent) (n : Nat),
      (∀ f ∈ files, ¬(f.cluster_start ≤ cluster ∧ cluster ≤ f.cluster_end)) →
      info_index_scan cluster files n = none := by
  intro files
  induction files with
  | nil => intro n _; rfl
  | cons f fs ih =>
    intro n h
    rw [info_index_scan, if_neg (h f (List.mem_cons_self f fs))]
    exact ih (n + 1) (fun g hg => h g (List.mem_cons_of_mem f hg))

/-- `info_index_of` falls back to the last file when the cluster is in no
file's range (and also for clusters at or beyond 0xFFF0). -/
theorem info_index_of_fallback (files : List FileContent) (cluster : Nat)
    (h : ∀ f ∈ files, ¬(f.cluster_start ≤ cluster ∧ cluster ≤ f.cluster_end)) :
    info_index_of files cluster = files.length - 1 := by
  rw [info_index_of]
  split
  · rfl
  · rw [info_index_scan_none cluster files 0 h]
    rfl

/-- A member of a file list is some indexed entry (projection to `cluster_end`). -/
theorem mem_end_is_indexed (l : List FileContent) (f : FileContent) (hf : f ∈ l) :
    ∃ m, m < l.length ∧ f.cluster_end = (l.getD m noFile).cluster_end := by
  obtain ⟨m, hm, hn⟩ := List.mem_iff_getElem.1 hf
  refine ⟨m, hm, ?_⟩
  rw [List.getD_eq_getElem l noFile hm, hn]

/-- C2: the FAT entries synthesized by `uf2_read_block` (for either FAT
copy, i.e. any FAT-relative sector `rel`), writing `c = rel * 256 + idx`
for the cluster covered by entry `idx`: (1) a cluster inside some file's
allocated range other than that file's `cluster_end` maps to `c + 1`;
(2) every file's `cluster_end` maps to the end-of-chain marker 0xFFFF;
(3) clusters beyond the highest allocated cluster map to 0; (4) on the
first FAT sector, reserved entry 0 holds the media-descriptor encoding
0xFFF8 (bytes 0xF8 0xFF) and (5) reserved entry 1 holds 0xFFFF. All under
the no-overflow bound on the total cluster demand. -/
theorem C2_fat_entries (e : Env)
    (hw : 2 + (clusterCounts (bytesPerCluster e) (baseFiles e)).sum ≤ 65535)
    (rel idx : Nat) (hidx : idx < 256) :
    (∀ k, k < NUM_FILES →
      ((fileTable e).getD k noFile).cluster_start ≤ rel * 256 + idx →
      rel * 256 + idx ≤ ((fileTable e).getD k noFile).cluster_end →
      rel * 256 + idx ≠ ((fileTable e).getD k noFile).cluster_end →
      fatEntries e rel idx = rel * 256 + idx + 1) ∧
    (∀ k, k < NUM_FILES →
      rel * 256 + idx = ((fileTable e).getD k noFile).cluster_end →
      fatEntries e rel idx = 0xFFFF) ∧
    (((fileTable e).getD FID_UF2 noFile).cluster_end < rel * 256 + idx →
      fatEntries e rel idx = 0) ∧
    (rel = 0 → idx = 0 → fatEntries e rel idx = 0xFFF8) ∧
    (rel = 0 → idx = 1 → fatEntries e rel idx = 0xFFFF) := by
  have hlenB : (baseFiles e).length = 5 := rfl
  have hlen : (fileTable e).length = 5 := by
    rw [fileTable, init_starting_clusters, allocFrom_length, hlenB]
  have hget : ∀ k, k < 5 →
      ((fileTable e).getD k noFile).cluster_start
        = 2 + preSum (clusterCounts (bytesPerCluster e) (baseFiles e)) k ∧
      ((fileTable e).getD k noFile).cluster_end + 1
        = 2 + preSum (clusterCounts (bytesPerCluster e) (baseFiles e)) (k + 1) := by
    intro k hk
    exact allocFrom_get (bytesPerCluster e) (baseFiles e) 2 k (by omega) hw
      (by rw [hlenB]; omega)
  have hsum5 : preSum (clusterCounts (bytesPerCluster e) (baseFiles e)) 5
      ≤ (clusterCounts (bytesPerCluster e) (baseFiles e)).sum := preSum_le_sum _ _
  have hfu : firstUnusedCluster e = ((fileTable e).getD 4 noFile).cluster_end + 1 := rfl
  have hNF : NUM_FILES = 5 := rfl
  have hFU : FID_UF2 = 4 := rfl
  refine ⟨?_, ?_, ?_, ?_, ?_⟩
  · -- (1) interior of a file's range
    intro k hk h1 h2 h3
    rw [hNF] at hk
    have hSk := (hget k hk).1
    have hEk := (hget k hk).2
    rw [fatEntries, fatExc2_apply, if_neg]
    · have hc2 : 2 ≤ rel * 256 + idx := by omega
      have hE4 : ((fileTable e).getD 4 noFile).cluster_end + 1
          = 2 + preSum (clusterCounts (bytesPerCluster e) (baseFiles e)) 5 :=
        (hget 4 (by omega)).2
      have hc4 : rel * 256 + idx < ((fileTable e).getD 4 noFile).cluster_end + 1 := by
        have hm := preSum_mono (clusterCounts (bytesPerCluster e) (baseFiles e))
          (k + 1) 5 (by omega)
        omega
      by_cases hrel : rel = 0
      · subst hrel
        rw [fatExc1, if_pos rfl]
        simp only [upd]
        rw [if_neg (by omega : ¬(idx = 1)), if_neg (by omega : ¬(idx = 0))]
        simp only [fatDefault]
        rw [if_neg (by omega)]
        omega
      · rw [fatExc1, if_neg hrel]
        simp only [fatDefault]
        rw [if_neg (by omega)]
        omega
    · rintro ⟨f, hf, hge, hlt, heq⟩
      obtain ⟨m, hm, hme⟩ := mem_end_is_indexed _ f hf
      rw [hlen] at hm
      have hEm := (hget m hm).2
      rcases Nat.lt_or_ge m k with hmk | hmk
      · have hmo := preSum_mono (clusterCounts (bytesPerCluster e) (baseFiles e))
          (m + 1) k (by omega)
        omega
      · have hmo := preSum_mono (clusterCounts (bytesPerCluster e) (baseFiles e))
          (k + 1) (m + 1) (by omega)
        omega
  · -- (2) a file's cluster_end
    intro k hk h1
    rw [hNF] at hk
    have hgm : (fileTable e).getD k noFile ∈ fileTable e := by
      rw [List.getD_eq_getElem (fileTable e) noFile (show k < (fileTable e).length by omega)]
      exact List.getElem_mem _
    rw [fatEntries, fatExc2_apply,
      if_pos ⟨(fileTable e).getD k noFile, hgm, by omega, by omega, by omega⟩]
  · -- (3) beyond the highest allocated cluster
    intro h1
    rw [hFU] at h1
    have hE4 : ((fileTable e).getD 4 noFile).cluster_end + 1
        = 2 + preSum (clusterCounts (bytesPerCluster e) (baseFiles e)) 5 :=
      (hget 4 (by omega)).2
    rw [fatEntries, fatExc2_apply, if_neg]
    · by_cases hrel : rel = 0
      · subst hrel
        rw [fatExc1, if_pos rfl]
        simp only [upd]
        rw [if_neg (by omega : ¬(idx = 1)), if_neg (by omega : ¬(idx = 0))]
        simp only [fatDefault]
        rw [if_pos (by rw [hfu]; omega)]
      · rw [fatExc1, if_neg hrel]
        simp only [fatDefault]
        rw [if_pos (by rw [hfu]; omega)]
    · rintro ⟨f, hf, hge, hlt, heq⟩
      obtain ⟨m, hm, hme⟩ := mem_end_is_indexed _ f hf
      rw [hlen] at hm
      have hEm := (hget m hm).2
      have hmo := preSum_mono (clusterCounts (bytesPerCluster e) (baseFiles e))
        (m + 1) 5 (by omega)
      omega
  · -- (4) reserved entry 0
    intro hrel hidx0
    subst hrel
    subst hidx0
    rw [fatEntries, fatExc2_apply, if_neg]
    · rw [fatExc1, if_pos rfl]
      simp [upd]
    · rintro ⟨f, hf, hge, hlt, heq⟩
      obtain ⟨m, hm, hme⟩ := mem_end_is_indexed _ f hf
      rw [hlen] at hm
      have hEm := (hget m hm).2
      omega
  · -- (5) reserved entry 1
    intro hrel hidx1
    subst hrel
    subst hidx1
    rw [fatEntries, fatExc2_apply]
    split
    · rfl
    · rw [fatExc1, if_pos rfl]
      simp [upd]

/-- C2 witness: in the small environment, cluster 2 is INFO_UF2.TXT's
`cluster_end`, so FAT sector 0's entry 2 holds the end-of-chain marker;
entries 0 and 1 hold the reserved values. -/
theorem C2_fat_entries_witness :
    fatEntries envSmall 0 2 = 0xFFFF ∧
    fatEntries envSmall 0 0 = 0xFFF8 ∧
    fatEntries envSmall 0 1 = 0xFFFF := by
  refine ⟨?_, ?_, ?_⟩
  · exact (C2_fat_entries envSmall (by decide) 0 2 (by decide)).2.1 0 (by decide) (by decide)
  · exact (C2_fat_entries envSmall (by decide) 0 0 (by decide)).2.2.2.1 rfl rfl
  · exact (C2_fat_entries envSmall (by decide) 0 1 (by decide)).2.2.2.2 rfl rfl

/-- C8: `uf2_read_block` is total — for every in-range sector it returns a
full 512-byte sector — and a data-region sector whose cluster lies past
the last allocated cluster comes back all zero (the CURRENT.UF2 fallback
leaves the buffer untouched because the target address
`BOARD_FLASH_APP_START + fileRelativeSector * 256` is already outside the
live flash range). The zero-sector part assumes a positive
sectors-per-cluster, a flash size that is a multiple of the 256-byte
firmware chunk, an application base at or above the flash window base,
and the no-overflow bound on the cluster demand. -/
theorem C8_read_total (e : Env) (block_no : Nat) :
    (block_no < e.totalSectors → (uf2_read_block e block_no).length = 512) ∧
    (0 < e.sectorsPerCluster → e.flashSize % 256 = 0 →
     e.boardFlashAddrZero ≤ e.boardFlashAppStart →
     2 + (clusterCounts (bytesPerCluster e) (baseFiles e)).sum ≤ 65535 →
     fsStartClusters e ≤ block_no → block_no < e.totalSectors →
     ((fileTable e).getD FID_UF2 noFile).cluster_end
       < 2 + (block_no - fsStartClusters e) / e.sectorsPerCluster →
     uf2_read_block e block_no = List.replicate 512 0) := by
  constructor
  · intro _
    simp [uf2_read_block]
  · intro hspc h256 happ hw h5 h6 h7
    have hlenB : (baseFiles e).length = 5 := rfl
    have hlen : (fileTable e).length = 5 := by
      rw [fileTable, init_starting_clusters, allocFrom_length, hlenB]
    have hget : ∀ k, k < 5 →
        ((fileTable e).getD k noFile).cluster_start
          = 2 + preSum (clusterCounts (bytesPerCluster e) (baseFiles e)) k ∧
        ((fileTable e).getD k noFile).cluster_end + 1
          = 2 + preSum (clusterCounts (bytesPerCluster e) (baseFiles e)) (k + 1) := by
      intro k hk
      exact allocFrom_get (bytesPerCluster e) (baseFiles e) 2 k (by omega) hw
        (by rw [hlenB]; omega)
    have hE4 : ((fileTable e).getD 4 noFile).cluster_end + 1
        = 2 + preSum (clusterCounts (bytesPerCluster e) (baseFiles e)) 5 :=
      (hget 4 (by omega)).2
    have hS4 : ((fileTable e).getD 4 noFile).cluster_start
        = 2 + preSum (clusterCounts (bytesPerCluster e) (baseFiles e)) 4 :=
      (hget 4 (by omega)).1
    have h7x : ((fileTable e).getD 4 noFile).cluster_end
        < 2 + (block_no - fsStartClusters e) / e.sectorsPerCluster := h7
    have hfs : fsStartClusters e = fsStartRootdir e + 4 := rfl
    have hfr : fsStartRootdir e = 1 + sectorsPerFat e + sectorsPerFat e := rfl
    -- every byte of the synthesized sector is zero
    have hz : ∀ j, sectorByte e block_no j = 0 := by
      intro j
      rw [sectorByte, if_neg (by omega : ¬block_no = 0),
        if_neg (by omega : ¬block_no < fsStartRootdir e),
        if_neg (by omega : ¬block_no < fsStartClusters e), if_pos h6]
      -- the requested cluster is past every file's range
      have hpast : ∀ f ∈ fileTable e,
          ¬(f.cluster_start ≤ 2 + (block_no - fsStartClusters e) / e.sectorsPerCluster ∧
            2 + (block_no - fsStartClusters e) / e.sectorsPerCluster ≤ f.cluster_end) := by
        intro f hf hcon
        obtain ⟨m, hm, hme⟩ := mem_end_is_indexed _ f hf
        rw [hlen] at hm
        have hEm := (hget m hm).2
        have hmo := preSum_mono (clusterCounts (bytesPerCluster e) (baseFiles e))
          (m + 1) 5 (by omega)
        omega
      have hfid : info_index_of (fileTable e)
          (2 + (block_no - fsStartClusters e) / e.sectorsPerCluster) = 4 := by
        rw [info_index_of_fallback _ _ hpast, hlen]
      simp only [dataBytes]
      rw [hfid, if_neg (by decide), if_pos (by decide : (4 : Nat) = FID_UF2)]
      -- the target flash address is already past the flash window
      have hdiv : preSum (clusterCounts (bytesPerCluster e) (baseFiles e)) 5
          ≤ (block_no - fsStartClusters e) / e.sectorsPerCluster := by omega
      have hmul := (Nat.le_div_iff_mul_le hspc).1 hdiv
      have hlcc : (clusterCounts (bytesPerCluster e) (baseFiles e)).length = 5 := by
        rw [clusterCounts, List.length_map, hlenB]
      have hp45 : preSum (clusterCounts (bytesPerCluster e) (baseFiles e)) 5
          = preSum (clusterCounts (bytesPerCluster e) (baseFiles e)) 4
            + (clusterCounts (bytesPerCluster e) (baseFiles e)).getD 4 0 :=
        preSum_succ_getD _ 4 (by omega)
      have hcc4 : (clusterCounts (bytesPerCluster e) (baseFiles e)).getD 4 0
          = divCeil (uf2ByteCount e) (bytesPerCluster e) := by
        rw [clusterCounts_getD (bytesPerCluster e) (baseFiles e) 4 (by omega)]
        rfl
      rw [hp45, hcc4] at hmul
      have hx : (preSum (clusterCounts (bytesPerCluster e) (baseFiles e)) 4
            + divCeil (uf2ByteCount e) (bytesPerCluster e)) * e.sectorsPerCluster
          = preSum (clusterCounts (bytesPerCluster e) (baseFiles e)) 4 * e.sectorsPerCluster
            + divCeil (uf2ByteCount e) (bytesPerCluster e) * e.sectorsPerCluster :=
        Nat.add_mul _ _ _
      have hfrs : divCeil (uf2ByteCount e) (bytesPerCluster e) * e.sectorsPerCluster
          ≤ (block_no - fsStartClusters e)
            - preSum (clusterCounts (bytesPerCluster e) (baseFiles e)) 4
              * e.sectorsPerCluster := by omega
      have hceil : uf2ByteCount e
          ≤ divCeil (uf2ByteCount e) (bytesPerCluster e) * bytesPerCluster e :=
        le_divCeil_mul _ _ (by rw [bytesPerCluster]; exact Nat.mul_pos (by omega) hspc)
      have hb512 : e.flashSize / 256 * 512
          ≤ divCeil (uf2ByteCount e) (bytesPerCluster e) * e.sectorsPerCluster * 512 := by
        have harr : divCeil (uf2ByteCount e) (bytesPerCluster e) * bytesPerCluster e
            = divCeil (uf2ByteCount e) (bytesPerCluster e) * e.sectorsPerCluster * 512 := by
          rw [bytesPerCluster]
          ring
        rw [harr] at hceil
        exact hceil
      have hb : e.flashSize / 256
          ≤ divCeil (uf2ByteCount e) (bytesPerCluster e) * e.sectorsPerCluster :=
        Nat.le_of_mul_le_mul_right hb512 (by omega)
      have ha : e.flashSize / 256 * 256 = e.flashSize :=
        Nat.div_mul_cancel (Nat.dvd_of_mod_eq_zero h256)
      have hb256 : e.flashSize / 256 * 256
          ≤ divCeil (uf2ByteCount e) (bytesPerCluster e) * e.sectorsPerCluster * 256 :=
        Nat.mul_le_mul_right _ hb
      have h256b : divCeil (uf2ByteCount e) (bytesPerCluster e) * e.sectorsPerCluster * 256
          ≤ ((block_no - fsStartClusters e)
              - preSum (clusterCounts (bytesPerCluster e) (baseFiles e)) 4
                * e.sectorsPerCluster) * 256 :=
        Nat.mul_le_mul_right _ hfrs
      have hsub : ((fileTable e).getD 4 noFile).cluster_start - 2
          = preSum (clusterCounts (bytesPerCluster e) (baseFiles e)) 4 := by omega
      rw [hsub]
      simp only [uf2SynthByte]
      rw [if_neg (by omega)]
    rw [uf2_read_block]
    refine List.eq_replicate_iff.2 ⟨by simp, ?_⟩
    intro b hb
    obtain ⟨j, _, rfl⟩ := List.mem_map.1 hb
    exact hz j

/-- C8 witness: in the small environment, data sector 16 addresses cluster
7, one past CURRENT.UF2's last cluster 6, and reads back as 512 zero
bytes; the boot sector also has length 512. -/
theorem C8_read_total_witness :
    (uf2_read_block envSmall 0).length = 512 ∧
    uf2_read_block envSmall 16 = List.replicate 512 0 := by
  refine ⟨(C8_read_total envSmall 0).1 (by decide), ?_⟩
  exact (C8_read_total envSmall 16).2 (by decide) (by decide) (by decide) (by decide)
    (by decide) (by decide) (by decide)
